import Mathlib

/-!
# LOGICYTICS_OLD: hardware inventory through WMI and a dynamically loaded provider

A shallow embedding of three C++ translation units of the repository

* `sys.cpp`                     (`GetMotherboardSerial`),
* `wmi_query.cpp`               (`main`, the session open sequence),
* `call_dll_and_save_info.cpp`  (`DllMain` and `main`, the host program),

together with theorems about resource release, the value returned by the
serial-number query and the behaviour of the host program.

The operating system is the environment of these programs.  Every call into it
(COM, WMI, the loader, the file system) is given its outcome by a `Backend` or
`HostEnv` value, and every function of the embedding returns, next to its C++
return value, the list of environment calls it made, in program order.
-/

namespace Logicytics

/-! ## Windows SDK vocabulary used by the sources -/

/-- HRESULT of the Windows SDK: a signed status code. -/
abbrev HRESULT := Int

/-- SDK test `FAILED(hr)`, which is `((HRESULT)(hr)) < 0`. -/
def FAILED (hr : HRESULT) : Bool := decide (hr < 0)

/-- SDK test `SUCCEEDED(hr)`, which is `((HRESULT)(hr)) >= 0`. -/
def SUCCEEDED (hr : HRESULT) : Bool := decide (0 ≤ hr)

/-- Status `WBEM_S_NO_ERROR` (0): the requested objects were returned. -/
def WBEM_S_NO_ERROR : HRESULT := 0

/-- Status `WBEM_S_FALSE` (1): fewer objects than requested were available. -/
def WBEM_S_FALSE : HRESULT := 1

/-! ## The WMI backend seen by `sys.cpp` -/

/-- One `IWbemClassObject` handed out by the enumerator: what its
`Get(L"SerialNumber", ...)` answers, and the `bstrVal` stored in the variant
when that call succeeds.  A `BSTR` carries its length, so `bstrVal` is its
whole content and may hold NUL characters. -/
structure ClsObj where
  getHr : HRESULT
  bstrVal : String
  deriving DecidableEq, Repr

/-- Outcome of one call `pEnumerator->Next(WBEM_INFINITE, 1, &pclsObj, &uReturn)`.
`object o`  : one object is stored in `pclsObj`, `uReturn` becomes 1;
`noMore`    : the enumeration is over, `uReturn` becomes 0;
`failure hr`: the call reports the status `hr` and hands out no object,
              `uReturn` becomes 0 (the count of objects returned). -/
inductive NextOutcome where
  | object (o : ClsObj)
  | noMore
  | failure (hr : HRESULT)
  deriving DecidableEq, Repr

/-- Outcomes of the backend calls made by the session set-up and the query.
`nexts` scripts the successive calls of `Next`; an enumerator is finite, so a
call made after the script is used up reports the end of the enumeration.
A call that succeeds stores a valid interface pointer (COM out-parameter
rule), so `pLoc`, `pSvc` and `pEnumerator` are non-null after their checks. -/
structure Backend where
  coInitializeEx : HRESULT
  coInitializeSecurity : HRESULT
  coCreateInstance : HRESULT
  connectServer : HRESULT
  execQuery : HRESULT
  nexts : List NextOutcome
  deriving Repr

/-- Calls into the environment, with the status each one reported.  A record
object is named by the number of objects the enumerator handed out before it. -/
inductive Call where
  | CoInitializeEx (hres : HRESULT)
  | CoInitializeSecurity (hres : HRESULT)
  | CoCreateInstance (hres : HRESULT)
  | ConnectServer (hres : HRESULT)
  | ExecQuery (hres : HRESULT)
  | Next (hr : HRESULT) (pclsObj : Option Nat)
  | Get (obj : Nat) (hr : HRESULT)
  | VariantClear (obj : Nat)
  | ReleaseObject (obj : Nat)
  | ReleaseEnumerator
  | ReleaseServices
  | ReleaseLocator
  | CoUninitialize
  | cout (msg : String) (hres : HRESULT)
  | coutLine (msg : String)
  deriving DecidableEq, Repr

/-- Value returned by a function together with the calls it made. -/
structure Run (α : Type) where
  value : α
  trace : List Call
  deriving Repr

/-- Assignment `serialNumber = vtProp.bstrVal` (sys.cpp 106).  A `BSTR` is a
`wchar_t*`, so the `std::wstring` receives it as a NUL-terminated string: it
copies the characters before the first NUL and nothing after them. -/
def assignBstr (bstrVal : String) : String :=
  ⟨bstrVal.data.takeWhile (fun c => c != Char.ofNat 0)⟩

/-- The `while (pEnumerator)` loop of `GetMotherboardSerial` (sys.cpp 96-110).
`i` is the number of objects received so far, `serialNumber` the current value
of the local of that name.  The status of `Next` is stored in `hr` and never
read: the loop is left exactly when `uReturn` is 0. -/
def enumLoop : List NextOutcome → Nat → String → Run String
  | [], _, serialNumber => ⟨serialNumber, [.Next WBEM_S_FALSE none]⟩
  | .noMore :: _, _, serialNumber => ⟨serialNumber, [.Next WBEM_S_FALSE none]⟩
  | .failure hr :: _, _, serialNumber => ⟨serialNumber, [.Next hr none]⟩
  | .object o :: rest, i, serialNumber =>
      let hr := o.getHr
      let got : Run String :=
        if SUCCEEDED hr then ⟨assignBstr o.bstrVal, [.Get i hr, .VariantClear i]⟩
        else ⟨serialNumber, [.Get i hr]⟩
      let r := enumLoop rest (i + 1) got.value
      ⟨r.value, .Next WBEM_S_NO_ERROR (some i) :: got.trace ++ .ReleaseObject i :: r.trace⟩

/-- Function `GetMotherboardSerial` of sys.cpp (lines 9-120).  The empty string
is the literal returned by each failing set-up step. -/
def GetMotherboardSerial (b : Backend) : Run String :=
  let hres := b.coInitializeEx
  if FAILED hres then
    ⟨"", [.CoInitializeEx hres,
          .cout "Failed to initialize COM library. Error code = 0x" hres]⟩
  else
  let t1 : List Call := [.CoInitializeEx hres]
  let hres := b.coInitializeSecurity
  if FAILED hres then
    ⟨"", t1 ++ [.CoInitializeSecurity hres,
          .cout "Failed to initialize security. Error code = 0x" hres,
          Call.CoUninitialize]⟩
  else
  let t2 : List Call := t1 ++ [.CoInitializeSecurity hres]
  let hres := b.coCreateInstance
  if FAILED hres then
    ⟨"", t2 ++ [.CoCreateInstance hres,
          .cout "Failed to create IWbemLocator object. Error code = 0x" hres,
          Call.CoUninitialize]⟩
  else
  let t3 : List Call := t2 ++ [.CoCreateInstance hres]
  let hres := b.connectServer
  if FAILED hres then
    ⟨"", t3 ++ [.ConnectServer hres,
          .cout "Could not connect. Error code = 0x" hres,
          .ReleaseLocator,
          Call.CoUninitialize]⟩
  else
  let t4 : List Call := t3 ++ [.ConnectServer hres]
  let serialNumber := ""
  let hres := b.execQuery
  if FAILED hres then
    ⟨"", t4 ++ [.ExecQuery hres,
          .cout "Query for motherboard serial number failed. Error code = 0x" hres,
          .ReleaseServices,
          .ReleaseLocator,
          Call.CoUninitialize]⟩
  else
  let t5 : List Call := t4 ++ [.ExecQuery hres]
  let loop := enumLoop b.nexts 0 serialNumber
  ⟨loop.value,
    t5 ++ loop.trace ++ [.ReleaseEnumerator, .ReleaseServices, .ReleaseLocator, Call.CoUninitialize]⟩

/-! ## wmi_query.cpp -/

namespace WmiQuery

/-- Function `main` of wmi_query.cpp (lines 7-80): the session open sequence
followed at once by its teardown.  Only the four set-up outcomes of the
backend are consulted. -/
def main (b : Backend) : Run Int :=
  let hres := b.coInitializeEx
  if FAILED hres then
    ⟨1, [.CoInitializeEx hres,
         .cout "Failed to initialize COM library. Error code = 0x" hres]⟩
  else
  let t1 : List Call := [.CoInitializeEx hres]
  let hres := b.coInitializeSecurity
  if FAILED hres then
    ⟨1, t1 ++ [.CoInitializeSecurity hres,
         .cout "Failed to initialize security. Error code = 0x" hres,
         Call.CoUninitialize]⟩
  else
  let t2 : List Call := t1 ++ [.CoInitializeSecurity hres]
  let hres := b.coCreateInstance
  if FAILED hres then
    ⟨1, t2 ++ [.CoCreateInstance hres,
         .cout "Failed to create IWbemLocator object. Error code = 0x" hres,
         Call.CoUninitialize]⟩
  else
  let t3 : List Call := t2 ++ [.CoCreateInstance hres]
  let hres := b.connectServer
  if FAILED hres then
    ⟨1, t3 ++ [.ConnectServer hres,
         .cout "Could not connect. Error code = 0x" hres,
         .ReleaseLocator,
         Call.CoUninitialize]⟩
  else
  ⟨0, t3 ++ [.ConnectServer hres,
       .coutLine "Connected to ROOT\\CIMV2 WMI namespace",
       .ReleaseServices,
       .ReleaseLocator,
       Call.CoUninitialize]⟩

end WmiQuery

/-! ## Resources of a COM session and their life cycle -/

/-- Things the WMI code acquires and has to give back. -/
inductive Resource where
  | com
  | locator
  | services
  | enumerator
  | object (i : Nat)
  deriving DecidableEq, Repr

/-- Resource a call hands to the caller, if any: the calls that acquire do so
only when they succeed, and `Next` only when it stores an object. -/
def Call.acquires : Call → Option Resource
  | .CoInitializeEx hres => if SUCCEEDED hres then some .com else none
  | .CoCreateInstance hres => if SUCCEEDED hres then some .locator else none
  | .ConnectServer hres => if SUCCEEDED hres then some .services else none
  | .ExecQuery hres => if SUCCEEDED hres then some .enumerator else none
  | .Next _ (some i) => some (.object i)
  | _ => none

/-- Resource a call gives back, if any. -/
def Call.releases : Call → Option Resource
  | Call.CoUninitialize => some .com
  | .ReleaseLocator => some .locator
  | .ReleaseServices => some .services
  | .ReleaseEnumerator => some .enumerator
  | .ReleaseObject i => some (.object i)
  | _ => none

/-- Number of calls of a trace that acquire `r`. -/
def acquired (r : Resource) (t : List Call) : Nat :=
  t.countP (fun c => decide (c.acquires = some r))

/-- Number of calls of a trace that release `r`. -/
def released (r : Resource) (t : List Call) : Nat :=
  t.countP (fun c => decide (c.releases = some r))

/-- Life of a resource: not yet acquired, held by the program, given back. -/
inductive Life where
  | fresh
  | held
  | done
  deriving DecidableEq, Repr

/-- Life cycle of `r` along a trace, from the state `st`.  The result is `none`
when `r` is acquired otherwise than fresh, or released while not held. -/
def track (r : Resource) : List Call → Life → Option Life
  | [], st => some st
  | c :: t, st =>
      if c.acquires = some r then (if st = .fresh then track r t .held else none)
      else if c.releases = some r then (if st = .held then track r t .done else none)
      else track r t st

/-- Number of acquisitions a life-cycle state stands for. -/
def Life.acq : Life → Nat
  | .fresh => 0
  | _ => 1

/-- Number of releases a life-cycle state stands for. -/
def Life.rel : Life → Nat
  | .done => 1
  | _ => 0

/-- Is the call a `Next` of the enumerator? -/
def Call.isNext : Call → Bool
  | .Next _ _ => true
  | _ => false

/-- Objects handed out by the enumerator: those of the script up to its first
outcome that is not an object. -/
def yielded : List NextOutcome → List ClsObj
  | .object o :: rest => o :: yielded rest
  | _ => []

/-- Session set-up and `ExecQuery` all succeed on this backend. -/
def setupOk (b : Backend) : Bool :=
  SUCCEEDED b.coInitializeEx && SUCCEEDED b.coInitializeSecurity &&
    SUCCEEDED b.coCreateInstance && SUCCEEDED b.connectServer && SUCCEEDED b.execQuery

/-- Serial number, as assigned to a `std::wstring`, of the last object of a
list whose `SerialNumber` can be read; `v` when there is none. -/
def lastReadable (v : String) : List ClsObj → String
  | [] => v
  | o :: rest => lastReadable (if SUCCEEDED o.getHr then assignBstr o.bstrVal else v) rest

/-! ## call_dll_and_save_info.cpp -/

namespace Host

/-- The part of the world the host program shares with the provider: the
content of `system_info.txt`, `none` while the file does not exist. -/
abbrev World := Option String

/-- A resolved `GetSystemInfoFunc`: a procedure without argument or result,
given by what running it does to the world. -/
abbrev GetSystemInfoFunc := World → World

/-- SDK constant `DLL_PROCESS_DETACH`. -/
def DLL_PROCESS_DETACH : Nat := 0
/-- SDK constant `DLL_PROCESS_ATTACH`. -/
def DLL_PROCESS_ATTACH : Nat := 1
/-- SDK constant `DLL_THREAD_ATTACH`. -/
def DLL_THREAD_ATTACH : Nat := 2
/-- SDK constant `DLL_THREAD_DETACH`. -/
def DLL_THREAD_DETACH : Nat := 3

/-- Outcomes of the environment calls of the host program: the module handle
returned by `LoadLibrary` (`none` is NULL), the address returned by
`GetProcAddress` (`none` is nullptr), whether the output stream is open after
its construction, and the world before the program starts. -/
structure HostEnv where
  loadLibrary : Option Nat
  getProcAddress : Option GetSystemInfoFunc
  isOpen : Bool
  world : World

/-- Calls made by the host program. `invoke` is a call through the resolved
function pointer. -/
inductive HostCall where
  | LoadLibrary (name : String)
  | GetProcAddress (hInst : Nat) (symbol : String)
  | invoke
  | cerr (msg : String)
  | ofstream (name : String)
  | write (text : String)
  | endl
  | close
  | FreeLibrary (hInst : Nat)
  deriving DecidableEq, Repr

/-- Result of a function of the host program: its value, the calls it made and
the world it leaves. -/
structure HostRun (α : Type) where
  value : α
  trace : List HostCall
  world : World

/-- Function `DllMain` of call_dll_and_save_info.cpp (lines 7-20); `true` is
`TRUE`.  Reasons other than the four SDK constants match no case. -/
def DllMain (_hModule : Nat) (reason : Nat) (getSystemInfo : Option GetSystemInfoFunc)
    (w : World) : HostRun Bool :=
  if reason = DLL_PROCESS_ATTACH then
    match getSystemInfo with
    | some f => ⟨true, [.invoke], f w⟩
    | none => ⟨true, [], w⟩
  else if reason = DLL_THREAD_ATTACH ∨ reason = DLL_THREAD_DETACH
      ∨ reason = DLL_PROCESS_DETACH then
    ⟨true, [], w⟩
  else
    ⟨true, [], w⟩

/-- Function `main` of call_dll_and_save_info.cpp (lines 22-51).  Opening an
`std::ofstream` in its default mode empties the file; `<<` and `std::endl`
append to it. -/
def main (env : HostEnv) : HostRun Int :=
  match env.loadLibrary with
  | none =>
      ⟨1, [.LoadLibrary "wmi_query.dll", .cerr "Failed to load wmi_query.dll"], env.world⟩
  | some hInst =>
      let t1 : List HostCall :=
        [.LoadLibrary "wmi_query.dll", .GetProcAddress hInst "getSystemInfo"]
      match env.getProcAddress with
      | none =>
          ⟨1, t1 ++ [.cerr "Failed to get address of getSystemInfo", .FreeLibrary hInst],
            env.world⟩
      | some getSystemInfo =>
          let d := DllMain hInst DLL_PROCESS_ATTACH (some getSystemInfo) env.world
          let t2 := t1 ++ d.trace ++ [.ofstream "system_info.txt"]
          if !env.isOpen then
            ⟨1, t2 ++ [.cerr "Failed to open system_info.txt for writing", .FreeLibrary hInst],
              d.world⟩
          else
            let w1 : World := some ""
            let w2 : World := w1.map (fun s => s ++ "System Information Retrieved Successfully")
            let w3 : World := w2.map (fun s => s ++ "\n")
            ⟨0, t2 ++ [.write "System Information Retrieved Successfully", .endl, .close,
                  .FreeLibrary hInst], w3⟩

end Host

/-! ## Lemmas on status tests and life cycles -/

theorem SUCCEEDED_eq_not_FAILED (hr : HRESULT) : SUCCEEDED hr = !FAILED hr := by
  unfold SUCCEEDED FAILED
  by_cases h : hr < 0
  · have : ¬ (0 ≤ hr) := Int.not_le.mpr h
    simp [h, this]
  · have : 0 ≤ hr := Int.not_lt.mp h
    simp [h, this]

theorem track_append (r : Resource) (t1 t2 : List Call) (st : Life) :
    track r (t1 ++ t2) st = (track r t1 st).bind (track r t2) := by
  induction t1 generalizing st with
  | nil => simp [track]
  | cons c t ih =>
    simp only [List.cons_append, track]
    split
    · split
      · exact ih _
      · rfl
    · split
      · split
        · exact ih _
        · rfl
      · exact ih _

theorem Life.rel_le_acq (st : Life) : st.rel ≤ st.acq := by
  cases st <;> simp [Life.rel, Life.acq]

theorem Life.acq_le_one (st : Life) : st.acq ≤ 1 := by
  cases st <;> simp [Life.acq]

theorem track_counts (r : Resource) (t : List Call) (s0 s1 : Life)
    (h : track r t s0 = some s1) :
    acquired r t + s0.acq = s1.acq ∧ released r t + s0.rel = s1.rel := by
  induction t generalizing s0 with
  | nil =>
    simp only [track, Option.some.injEq] at h
    subst h
    simp [acquired, released]
  | cons c t ih =>
    simp only [track] at h
    by_cases ha : c.acquires = some r
    · have hr : c.releases ≠ some r := by
        intro hr
        cases c <;> simp [Call.acquires, Call.releases] at ha hr
      simp only [ha, if_true] at h
      by_cases hs : s0 = .fresh
      · subst hs
        simp only [if_true] at h
        have := ih _ h
        simp only [acquired, released, List.countP_cons, ha, hr, decide_True, decide_False,
          Life.acq, Life.rel] at this ⊢
        simp at this ⊢
        omega
      · simp [hs] at h
    · simp only [ha, if_false] at h
      by_cases hr : c.releases = some r
      · simp only [hr, if_true] at h
        by_cases hs : s0 = .held
        · subst hs
          simp only [if_true] at h
          have := ih _ h
          simp only [acquired, released, List.countP_cons, ha, hr, decide_True, decide_False,
            Life.acq, Life.rel] at this ⊢
          simp at this ⊢
          omega
        · simp [hs] at h
      · simp only [hr, if_false] at h
        have := ih _ h
        simp only [acquired, released, List.countP_cons, ha, hr, decide_False] at this ⊢
        simpa using this

/-- A trace whose life cycle for `r` is accepted and does not end with `r`
held acquires `r` at most once, releases it as often as it acquires it, and
never has released it more often than acquired it. -/
theorem track_sound (r : Resource) (t : List Call) (st : Life)
    (h : track r t .fresh = some st) (hst : st ≠ .held) :
    released r t = acquired r t ∧ acquired r t ≤ 1 ∧
      ∀ p, p <+: t → released r p ≤ acquired r p := by
  have hc := track_counts r t _ _ h
  simp only [Life.acq, Life.rel, Nat.add_zero] at hc
  refine ⟨?_, ?_, ?_⟩
  · rw [hc.1, hc.2]
    cases st <;> simp [Life.acq, Life.rel] at hst ⊢
  · rw [hc.1]; exact st.acq_le_one
  · rintro p ⟨q, rfl⟩
    rw [track_append] at h
    cases hp : track r p .fresh with
    | none => simp [hp] at h
    | some sm =>
      have hm := track_counts r p _ _ hp
      simp only [Life.acq, Life.rel, Nat.add_zero] at hm
      rw [hm.1, hm.2]
      exact sm.rel_le_acq

/-! ## Life cycles in `GetMotherboardSerial` -/

theorem enumLoop_track_other (r : Resource) (s : List NextOutcome) (i : Nat) (v : String)
    (st : Life) (hr : ∀ j, r = .object j → j < i) :
    track r (enumLoop s i v).trace st = some st := by
  induction s generalizing i v with
  | nil => simp [enumLoop, track, Call.acquires, Call.releases]
  | cons o rest ih =>
    cases o with
    | noMore => simp [enumLoop, track, Call.acquires, Call.releases]
    | failure hr => simp [enumLoop, track, Call.acquires, Call.releases]
    | object o =>
      have hne : Resource.object i ≠ r := fun h => by
        have := hr i h.symm
        omega
      have hrec := fun w => ih (i + 1) w (fun j hj => Nat.lt_succ_of_lt (hr j hj))
      by_cases hs : SUCCEEDED o.getHr = true
      · simp [enumLoop, track, Call.acquires, Call.releases, hs, hne, hrec]
      · simp [enumLoop, track, Call.acquires, Call.releases, hs, hne, hrec]

theorem enumLoop_track_object (s : List NextOutcome) (i : Nat) (v : String) (j : Nat)
    (hij : i ≤ j) :
    ∃ st, track (.object j) (enumLoop s i v).trace .fresh = some st ∧ st ≠ .held := by
  induction s generalizing i v with
  | nil => exact ⟨.fresh, by simp [enumLoop, track, Call.acquires, Call.releases], by simp⟩
  | cons o rest ih =>
    cases o with
    | noMore => exact ⟨.fresh, by simp [enumLoop, track, Call.acquires, Call.releases], by simp⟩
    | failure hr =>
      exact ⟨.fresh, by simp [enumLoop, track, Call.acquires, Call.releases], by simp⟩
    | object o =>
      by_cases hj : i = j
      · subst hj
        refine ⟨.done, ?_, by simp⟩
        have hrec := fun w => enumLoop_track_other (.object i) rest (i + 1) w .done
          (fun j hj => by cases hj; omega)
        by_cases hs : SUCCEEDED o.getHr = true
        · simp [enumLoop, track, Call.acquires, Call.releases, hs, hrec]
        · simp [enumLoop, track, Call.acquires, Call.releases, hs, hrec]
      · have hlt : i + 1 ≤ j := by omega
        have hne : i ≠ j := hj
        by_cases hs : SUCCEEDED o.getHr = true
        · obtain ⟨st, h1, h2⟩ := ih (i + 1) (assignBstr o.bstrVal) hlt
          exact ⟨st, by simp [enumLoop, track, Call.acquires, Call.releases, hs, hne, h1], h2⟩
        · obtain ⟨st, h1, h2⟩ := ih (i + 1) v hlt
          exact ⟨st, by simp [enumLoop, track, Call.acquires, Call.releases, hs, hne, h1], h2⟩

theorem GetMotherboardSerial_track (b : Backend) (r : Resource) :
    ∃ st, track r (GetMotherboardSerial b).trace .fresh = some st ∧ st ≠ .held := by
  unfold GetMotherboardSerial
  by_cases h1 : FAILED b.coInitializeEx = true
  · cases r <;>
      simp [h1, track, Call.acquires, Call.releases, SUCCEEDED_eq_not_FAILED]
  by_cases h2 : FAILED b.coInitializeSecurity = true
  · cases r <;>
      simp [h1, h2, track, Call.acquires, Call.releases, SUCCEEDED_eq_not_FAILED]
  by_cases h3 : FAILED b.coCreateInstance = true
  · cases r <;>
      simp [h1, h2, h3, track, Call.acquires, Call.releases, SUCCEEDED_eq_not_FAILED]
  by_cases h4 : FAILED b.connectServer = true
  · cases r <;>
      simp [h1, h2, h3, h4, track, Call.acquires, Call.releases, SUCCEEDED_eq_not_FAILED]
  by_cases h5 : FAILED b.execQuery = true
  · cases r <;>
      simp [h1, h2, h3, h4, h5, track, Call.acquires, Call.releases, SUCCEEDED_eq_not_FAILED]
  simp only [h1, h2, h3, h4, h5, Bool.false_eq_true, if_false, List.append_assoc,
    List.cons_append, List.nil_append]
  cases r with
  | object j =>
    obtain ⟨st, hl, hst⟩ := enumLoop_track_object b.nexts 0 "" j (Nat.zero_le j)
    refine ⟨st, ?_, hst⟩
    simp [track, Call.acquires, Call.releases, SUCCEEDED_eq_not_FAILED, h1, h2, h3, h4, h5,
      track_append, hl]
  | com =>
    have hl := enumLoop_track_other .com b.nexts 0 "" .held (fun j hj => by cases hj)
    simp [track, Call.acquires, Call.releases, SUCCEEDED_eq_not_FAILED, h1, h2, h3, h4, h5,
      track_append, hl]
  | locator =>
    have hl := enumLoop_track_other .locator b.nexts 0 "" .held (fun j hj => by cases hj)
    simp [track, Call.acquires, Call.releases, SUCCEEDED_eq_not_FAILED, h1, h2, h3, h4, h5,
      track_append, hl]
  | services =>
    have hl := enumLoop_track_other .services b.nexts 0 "" .held (fun j hj => by cases hj)
    simp [track, Call.acquires, Call.releases, SUCCEEDED_eq_not_FAILED, h1, h2, h3, h4, h5,
      track_append, hl]
  | enumerator =>
    have hl := enumLoop_track_other .enumerator b.nexts 0 "" .held (fun j hj => by cases hj)
    simp [track, Call.acquires, Call.releases, SUCCEEDED_eq_not_FAILED, h1, h2, h3, h4, h5,
      track_append, hl]

/-! ## The value returned by `GetMotherboardSerial` -/

theorem GetMotherboardSerial_of_setupOk (b : Backend) (h : setupOk b = true) :
    GetMotherboardSerial b =
      ⟨(enumLoop b.nexts 0 "").value,
        [.CoInitializeEx b.coInitializeEx, .CoInitializeSecurity b.coInitializeSecurity,
          .CoCreateInstance b.coCreateInstance, .ConnectServer b.connectServer,
          .ExecQuery b.execQuery] ++ (enumLoop b.nexts 0 "").trace ++
        [.ReleaseEnumerator, .ReleaseServices, .ReleaseLocator, Call.CoUninitialize]⟩ := by
  simp only [setupOk, Bool.and_eq_true, SUCCEEDED_eq_not_FAILED, Bool.not_eq_true'] at h
  obtain ⟨⟨⟨⟨h1, h2⟩, h3⟩, h4⟩, h5⟩ := h
  simp [GetMotherboardSerial, h1, h2, h3, h4, h5]

theorem assignBstr_of_no_nul (s : String) (h : ∀ c ∈ s.data, c ≠ Char.ofNat 0) :
    assignBstr s = s := by
  have ht : s.data.takeWhile (fun c => c != Char.ofNat 0) = s.data :=
    List.takeWhile_eq_self_iff.mpr (fun c hc => by simpa using h c hc)
  unfold assignBstr
  rw [ht]

theorem enumLoop_value (s : List NextOutcome) (i : Nat) (v : String) :
    (enumLoop s i v).value = lastReadable v (yielded s) := by
  induction s generalizing i v with
  | nil => simp [enumLoop, yielded, lastReadable]
  | cons o rest ih =>
    cases o with
    | noMore => simp [enumLoop, yielded, lastReadable]
    | failure hr => simp [enumLoop, yielded, lastReadable]
    | object o =>
      by_cases hs : SUCCEEDED o.getHr = true
      · simp [enumLoop, yielded, lastReadable, hs, ih]
      · simp [enumLoop, yielded, lastReadable, hs, ih]

theorem lastReadable_unreadable (v : String) (l : List ClsObj)
    (h : ∀ o ∈ l, SUCCEEDED o.getHr = false) : lastReadable v l = v := by
  induction l generalizing v with
  | nil => rfl
  | cons o rest ih =>
    have ho : SUCCEEDED o.getHr = false := h o (List.mem_cons_self _ _)
    simp only [lastReadable, ho, Bool.false_eq_true, if_false]
    exact ih v (fun x hx => h x (List.mem_cons_of_mem _ hx))

theorem lastReadable_append (v : String) (front : List ClsObj) (o : ClsObj)
    (back : List ClsObj) (ho : SUCCEEDED o.getHr = true)
    (hb : ∀ x ∈ back, SUCCEEDED x.getHr = false) :
    lastReadable v (front ++ o :: back) = assignBstr o.bstrVal := by
  induction front generalizing v with
  | nil =>
    simp only [List.nil_append, lastReadable, ho, if_true]
    exact lastReadable_unreadable _ _ hb
  | cons a rest ih =>
    simp only [List.cons_append, lastReadable]
    exact ih _

theorem enumLoop_no_object (s : List NextOutcome) (i : Nat) (v : String)
    (h : yielded s = []) : ∃ hr, enumLoop s i v = ⟨v, [.Next hr none]⟩ := by
  cases s with
  | nil => exact ⟨WBEM_S_FALSE, rfl⟩
  | cons o rest =>
    cases o with
    | noMore => exact ⟨WBEM_S_FALSE, rfl⟩
    | failure hr => exact ⟨hr, rfl⟩
    | object o => simp [yielded] at h

theorem acquired_append (r : Resource) (t1 t2 : List Call) :
    acquired r (t1 ++ t2) = acquired r t1 + acquired r t2 := by
  simp [acquired]

theorem acquired_cons (r : Resource) (c : Call) (t : List Call) :
    acquired r (c :: t) = acquired r t + if c.acquires = some r then 1 else 0 := by
  simp [acquired, List.countP_cons]

theorem enumLoop_acquired_other (r : Resource) (s : List NextOutcome) (i : Nat) (v : String)
    (hr : ∀ j, r ≠ .object j) : acquired r (enumLoop s i v).trace = 0 := by
  induction s generalizing i v with
  | nil => simp [enumLoop, acquired, Call.acquires]
  | cons o rest ih =>
    cases o with
    | noMore => simp [enumLoop, acquired, Call.acquires]
    | failure hr => simp [enumLoop, acquired, Call.acquires]
    | object o =>
      have hne : Resource.object i ≠ r := fun h => hr i h.symm
      by_cases hs : SUCCEEDED o.getHr = true
      · simp [enumLoop, acquired_cons, acquired_append, Call.acquires, hs, hne, ih]
      · simp [enumLoop, acquired_cons, acquired_append, Call.acquires, hs, hne, ih]

theorem enumLoop_acquired_object (s : List NextOutcome) (i : Nat) (v : String) (j : Nat) :
    acquired (.object j) (enumLoop s i v).trace =
      if i ≤ j ∧ j < i + (yielded s).length then 1 else 0 := by
  induction s generalizing i v with
  | nil =>
    have : ¬ (i ≤ j ∧ j < i) := by omega
    simp [enumLoop, acquired, Call.acquires, yielded, this]
  | cons o rest ih =>
    cases o with
    | noMore =>
      have : ¬ (i ≤ j ∧ j < i) := by omega
      simp [enumLoop, acquired, Call.acquires, yielded, this]
    | failure hr =>
      have : ¬ (i ≤ j ∧ j < i) := by omega
      simp [enumLoop, acquired, Call.acquires, yielded, this]
    | object o =>
      have key : ∀ w, acquired (.object j) (Call.Next WBEM_S_NO_ERROR (some i) ::
          ((if SUCCEEDED o.getHr = true then
              (⟨assignBstr o.bstrVal, [.Get i o.getHr, .VariantClear i]⟩ : Run String)
            else ⟨v, [.Get i o.getHr]⟩).trace ++
            .ReleaseObject i :: (enumLoop rest (i + 1) w).trace)) =
          if i ≤ j ∧ j < i + (rest |> yielded |>.length) + 1 then 1 else 0 := by
        intro w
        rw [acquired_cons, acquired_append, acquired_cons, ih]
        have h0 : acquired (.object j) (if SUCCEEDED o.getHr = true then
              (⟨assignBstr o.bstrVal, [.Get i o.getHr, .VariantClear i]⟩ : Run String)
            else ⟨v, [.Get i o.getHr]⟩).trace = 0 := by
          split <;> simp [acquired, Call.acquires]
        rw [h0]
        simp only [Call.acquires, Option.some.injEq, Resource.object.injEq, reduceCtorEq,
          if_false, Nat.add_zero, Nat.zero_add]
        by_cases h1 : i = j
        · subst h1
          have e1 : ¬ (i + 1 ≤ i ∧ i < i + 1 + (yielded rest).length) := by omega
          have e2 : i ≤ i ∧ i < i + (yielded rest).length + 1 := by omega
          simp [e1, e2]
        · by_cases h2 : i + 1 ≤ j ∧ j < i + 1 + (yielded rest).length
          · have e2 : i ≤ j ∧ j < i + (yielded rest).length + 1 := by omega
            simp [h1, h2, e2]
          · have e2 : ¬ (i ≤ j ∧ j < i + (yielded rest).length + 1) := by omega
            simp [h1, h2, e2]
      simpa [enumLoop, yielded, Nat.add_assoc] using key _

theorem GetMotherboardSerial_acquired_object (b : Backend) (j : Nat) :
    acquired (.object j) (GetMotherboardSerial b).trace =
      if setupOk b = true ∧ j < (yielded b.nexts).length then 1 else 0 := by
  by_cases hset : setupOk b = true
  · rw [GetMotherboardSerial_of_setupOk b hset]
    simp only [acquired_append, enumLoop_acquired_object, hset, true_and, Nat.zero_le,
      Nat.zero_add]
    simp [acquired, Call.acquires]
  · have hset2 := hset
    simp only [setupOk, Bool.and_eq_true, SUCCEEDED_eq_not_FAILED, Bool.not_eq_true'] at hset2
    unfold GetMotherboardSerial
    by_cases h1 : FAILED b.coInitializeEx = true
    · simp [h1, hset, acquired, Call.acquires]
    by_cases h2 : FAILED b.coInitializeSecurity = true
    · simp [h1, h2, hset, acquired, Call.acquires]
    by_cases h3 : FAILED b.coCreateInstance = true
    · simp [h1, h2, h3, hset, acquired, Call.acquires]
    by_cases h4 : FAILED b.connectServer = true
    · simp [h1, h2, h3, h4, hset, acquired, Call.acquires]
    by_cases h5 : FAILED b.execQuery = true
    · simp [h1, h2, h3, h4, h5, hset, acquired, Call.acquires]
    · simp only [Bool.not_eq_true] at h1 h2 h3 h4 h5
      exact absurd ⟨⟨⟨⟨h1, h2⟩, h3⟩, h4⟩, h5⟩ hset2

theorem GetMotherboardSerial_acquired_session (b : Backend) :
    (acquired .com (GetMotherboardSerial b).trace =
      if SUCCEEDED b.coInitializeEx = true then 1 else 0) ∧
    (acquired .locator (GetMotherboardSerial b).trace =
      if SUCCEEDED b.coInitializeEx = true ∧ SUCCEEDED b.coInitializeSecurity = true ∧
        SUCCEEDED b.coCreateInstance = true then 1 else 0) ∧
    (acquired .services (GetMotherboardSerial b).trace =
      if SUCCEEDED b.coInitializeEx = true ∧ SUCCEEDED b.coInitializeSecurity = true ∧
        SUCCEEDED b.coCreateInstance = true ∧ SUCCEEDED b.connectServer = true then 1 else 0) ∧
    (acquired .enumerator (GetMotherboardSerial b).trace =
      if setupOk b = true then 1 else 0) := by
  have e1 := fun w => enumLoop_acquired_other .com b.nexts 0 w (by simp)
  have e2 := fun w => enumLoop_acquired_other .locator b.nexts 0 w (by simp)
  have e3 := fun w => enumLoop_acquired_other .services b.nexts 0 w (by simp)
  have e4 := fun w => enumLoop_acquired_other .enumerator b.nexts 0 w (by simp)
  unfold GetMotherboardSerial setupOk
  by_cases h1 : FAILED b.coInitializeEx = true
  · simp [h1, acquired_cons, Call.acquires, SUCCEEDED_eq_not_FAILED, acquired]
  by_cases h2 : FAILED b.coInitializeSecurity = true
  · simp [h1, h2, acquired_cons, Call.acquires, SUCCEEDED_eq_not_FAILED, acquired]
  by_cases h3 : FAILED b.coCreateInstance = true
  · simp [h1, h2, h3, acquired_cons, Call.acquires, SUCCEEDED_eq_not_FAILED, acquired]
  by_cases h4 : FAILED b.connectServer = true
  · simp [h1, h2, h3, h4, acquired_cons, Call.acquires, SUCCEEDED_eq_not_FAILED, acquired]
  by_cases h5 : FAILED b.execQuery = true
  · simp [h1, h2, h3, h4, h5, acquired_cons, Call.acquires, SUCCEEDED_eq_not_FAILED, acquired]
  simp only [h1, h2, h3, h4, h5, Bool.false_eq_true, if_false, List.append_assoc,
    List.cons_append, List.nil_append, acquired_cons, acquired_append, e1, e2, e3, e4]
  simp [Call.acquires, SUCCEEDED_eq_not_FAILED, h1, h2, h3, h4, h5, acquired]

/-- C1: in `GetMotherboardSerial`, for every backend (every combination of
call outcomes and every script of `Next` outcomes) and every resource (the COM
initialisation, the locator, the services proxy, the enumerator, each record
object), the run acquires the resource at most once, releases it exactly as
often as it acquires it, and at no point has released it more often than
acquired it.  In terms of the outcomes: `CoUninitialize` is called once if
`CoInitializeEx` succeeded, the locator, the services proxy and the
enumerator are released once if the calls up to and including the one that
creates them succeeded, the object of number `j` is released once if the
set-up succeeded and the enumerator yields more than `j` objects; each is
never released otherwise. -/
theorem C1_resources_released_exactly_once (b : Backend) (r : Resource) (j : Nat) :
    (released r (GetMotherboardSerial b).trace = acquired r (GetMotherboardSerial b).trace ∧
      acquired r (GetMotherboardSerial b).trace ≤ 1 ∧
      ∀ p, p <+: (GetMotherboardSerial b).trace → released r p ≤ acquired r p) ∧
    (released .com (GetMotherboardSerial b).trace =
      if SUCCEEDED b.coInitializeEx = true then 1 else 0) ∧
    (released .locator (GetMotherboardSerial b).trace =
      if SUCCEEDED b.coInitializeEx = true ∧ SUCCEEDED b.coInitializeSecurity = true ∧
        SUCCEEDED b.coCreateInstance = true then 1 else 0) ∧
    (released .services (GetMotherboardSerial b).trace =
      if SUCCEEDED b.coInitializeEx = true ∧ SUCCEEDED b.coInitializeSecurity = true ∧
        SUCCEEDED b.coCreateInstance = true ∧ SUCCEEDED b.connectServer = true then 1 else 0) ∧
    (released .enumerator (GetMotherboardSerial b).trace =
      if setupOk b = true then 1 else 0) ∧
    (released (.object j) (GetMotherboardSerial b).trace =
      if setupOk b = true ∧ j < (yielded b.nexts).length then 1 else 0) := by
  have life : ∀ r, released r (GetMotherboardSerial b).trace =
      acquired r (GetMotherboardSerial b).trace ∧
      acquired r (GetMotherboardSerial b).trace ≤ 1 ∧
      ∀ p, p <+: (GetMotherboardSerial b).trace → released r p ≤ acquired r p := by
    intro r
    obtain ⟨st, h, hst⟩ := GetMotherboardSerial_track b r
    exact track_sound r _ st h hst
  obtain ⟨a1, a2, a3, a4⟩ := GetMotherboardSerial_acquired_session b
  refine ⟨life r, ?_, ?_, ?_, ?_, ?_⟩
  · rw [(life .com).1, a1]
  · rw [(life .locator).1, a2]
  · rw [(life .services).1, a3]
  · rw [(life .enumerator).1, a4]
  · rw [(life (.object j)).1, GetMotherboardSerial_acquired_object]

/-- C2, refuted as stated: set-up and query succeed and the enumerator yields
two readable records with serial numbers "A" then "B"; the function returns
"B", not the serial number "A" of the first record, and replacing the second
record by one with serial number "C" changes the returned value. -/
theorem C2_first_record_not_returned :
    setupOk ⟨0, 0, 0, 0, 0, [.object ⟨0, "A"⟩, .object ⟨0, "B"⟩]⟩ = true ∧
    yielded [.object ⟨0, "A"⟩, .object ⟨0, "B"⟩] = [⟨0, "A"⟩, ⟨0, "B"⟩] ∧
    (GetMotherboardSerial ⟨0, 0, 0, 0, 0, [.object ⟨0, "A"⟩, .object ⟨0, "B"⟩]⟩).value = "B" ∧
    (GetMotherboardSerial ⟨0, 0, 0, 0, 0, [.object ⟨0, "A"⟩, .object ⟨0, "B"⟩]⟩).value ≠ "A" ∧
    (GetMotherboardSerial ⟨0, 0, 0, 0, 0, [.object ⟨0, "A"⟩, .object ⟨0, "C"⟩]⟩).value = "C" := by
  refine ⟨by decide, by simp [yielded], by decide, by decide, by decide⟩

/-- C2, amended: when set-up and query succeed and the enumerator yields two
or more records whose `SerialNumber` is readable, `GetMotherboardSerial`
returns the `SerialNumber` of the last record yielded, as the assignment at
sys.cpp 106 copies it (the characters before its first NUL; the whole serial
number when it holds no NUL), whatever the records before it hold. -/
theorem C2_last_record_returned (b : Backend) (recs : List ClsObj)
    (hset : setupOk b = true) (hy : yielded b.nexts = recs) (hn : 2 ≤ recs.length)
    (hread : ∀ o ∈ recs, SUCCEEDED o.getHr = true) :
    ∃ last, recs.getLast? = some last ∧
      (GetMotherboardSerial b).value = assignBstr last.bstrVal ∧
      ((∀ c ∈ last.bstrVal.data, c ≠ Char.ofNat 0) →
        (GetMotherboardSerial b).value = last.bstrVal) := by
  have hne : recs ≠ [] := by
    intro h
    simp [h] at hn
  have hval : (GetMotherboardSerial b).value = assignBstr (recs.getLast hne).bstrVal := by
    rw [GetMotherboardSerial_of_setupOk b hset]
    show (enumLoop b.nexts 0 "").value = _
    rw [enumLoop_value, hy]
    have hsplit : recs = recs.dropLast ++ recs.getLast hne :: [] :=
      (List.dropLast_append_getLast hne).symm
    have hlast : SUCCEEDED (recs.getLast hne).getHr = true := hread _ (List.getLast_mem hne)
    conv_lhs => rw [hsplit]
    exact lastReadable_append _ _ _ _ hlast (fun x hx => by simp at hx)
  refine ⟨recs.getLast hne, List.getLast?_eq_getLast _ hne, hval, fun hnul => ?_⟩
  rw [hval, assignBstr_of_no_nul _ hnul]

/-- Instance of the amended C2 at the records "A", "B". -/
theorem C2_last_record_returned_witness :
    (GetMotherboardSerial ⟨0, 0, 0, 0, 0, [.object ⟨0, "A"⟩, .object ⟨0, "B"⟩]⟩).value = "B" := by
  obtain ⟨last, h1, _, h3⟩ := C2_last_record_returned
    ⟨0, 0, 0, 0, 0, [.object ⟨0, "A"⟩, .object ⟨0, "B"⟩]⟩ [⟨0, "A"⟩, ⟨0, "B"⟩]
    (by decide) (by simp [yielded]) (by decide) (by decide)
  simp only [List.getLast?, List.getLast, Option.some.injEq] at h1
  subst h1
  exact h3 (by decide)

/-- C3, the code at a failing input: set-up and query succeed, the first
`Next` hands out a record with readable serial number "A" and the second
`Next` reports the failure status -1.  The run makes no `Next` call after the
failing one and goes through the cleanup, but it returns "A", the serial
number of the earlier record, and not the empty string that every failing
set-up step returns: the status of `Next` is never tested. -/
theorem C3_failure_not_surfaced :
    setupOk ⟨0, 0, 0, 0, 0, [.object ⟨0, "A"⟩, .failure (-1), .object ⟨0, "B"⟩]⟩ = true ∧
    FAILED (-1) = true ∧
    (GetMotherboardSerial
        ⟨0, 0, 0, 0, 0, [.object ⟨0, "A"⟩, .failure (-1), .object ⟨0, "B"⟩]⟩).trace =
      [.CoInitializeEx 0, .CoInitializeSecurity 0, .CoCreateInstance 0, .ConnectServer 0,
        .ExecQuery 0, .Next WBEM_S_NO_ERROR (some 0), .Get 0 0, .VariantClear 0,
        .ReleaseObject 0, .Next (-1) none, .ReleaseEnumerator, .ReleaseServices,
        .ReleaseLocator, Call.CoUninitialize] ∧
    (GetMotherboardSerial
        ⟨0, 0, 0, 0, 0, [.object ⟨0, "A"⟩, .failure (-1), .object ⟨0, "B"⟩]⟩).value = "A" ∧
    (GetMotherboardSerial
        ⟨0, 0, 0, 0, 0, [.object ⟨0, "A"⟩, .failure (-1), .object ⟨0, "B"⟩]⟩).value ≠ "" ∧
    (GetMotherboardSerial ⟨0, -1, 0, 0, 0, []⟩).value = "" := by
  refine ⟨by decide, by decide, by decide, by decide, by decide, by decide⟩

/-- C4, refuted as stated: set-up and query succeed and the enumerator yields
exactly one record, whose `SerialNumber` is read successfully with the value
"AB", NUL, "CD"; the function returns "AB", not that value. -/
theorem C4_serial_cut_at_nul :
    setupOk ⟨0, 0, 0, 0, 0, [.object ⟨0, "AB\x00CD"⟩]⟩ = true ∧
    yielded [.object ⟨0, "AB\x00CD"⟩] = [⟨0, "AB\x00CD"⟩] ∧
    SUCCEEDED (0 : HRESULT) = true ∧
    (GetMotherboardSerial ⟨0, 0, 0, 0, 0, [.object ⟨0, "AB\x00CD"⟩]⟩).value = "AB" ∧
    (GetMotherboardSerial ⟨0, 0, 0, 0, 0, [.object ⟨0, "AB\x00CD"⟩]⟩).value ≠ "AB\x00CD" := by
  refine ⟨by decide, by simp [yielded], by decide, by decide, by decide⟩

/-- C4, amended: for every string `s` that holds no NUL character, when COM
initialisation, security initialisation, locator creation, `ConnectServer`
and `ExecQuery` all succeed and the enumerator yields exactly one record,
whose `SerialNumber` is read successfully with value `s`,
`GetMotherboardSerial` returns exactly `s`. -/
theorem C4_single_record_serial (s : String) (b : Backend) (o : ClsObj)
    (hnul : ∀ c ∈ s.data, c ≠ Char.ofNat 0)
    (hset : setupOk b = true) (hy : yielded b.nexts = [o])
    (hget : SUCCEEDED o.getHr = true) (hval : o.bstrVal = s) :
    (GetMotherboardSerial b).value = s := by
  rw [GetMotherboardSerial_of_setupOk b hset]
  show (enumLoop b.nexts 0 "").value = _
  rw [enumLoop_value, hy]
  simp only [lastReadable, hget, if_true, hval]
  exact assignBstr_of_no_nul s hnul

/-- Instance of the amended C4 at the serial number "ABC123". -/
theorem C4_single_record_serial_witness :
    (GetMotherboardSerial ⟨0, 0, 0, 0, 0, [.object ⟨0, "ABC123"⟩]⟩).value = "ABC123" :=
  C4_single_record_serial "ABC123" ⟨0, 0, 0, 0, 0, [.object ⟨0, "ABC123"⟩]⟩ ⟨0, "ABC123"⟩
    (by decide) (by decide) (by simp [yielded]) (by decide) rfl

/-- C5: when set-up and query succeed and the enumerator yields no record,
`GetMotherboardSerial` makes exactly one `Next` call, then the full cleanup
(enumerator, services, locator, COM) and returns through its final return
statement the empty string. -/
theorem C5_no_record_empty_serial (b : Backend) (hset : setupOk b = true)
    (hy : yielded b.nexts = []) :
    (GetMotherboardSerial b).value = "" ∧
    (GetMotherboardSerial b).trace.countP Call.isNext = 1 ∧
    ∃ hr, (GetMotherboardSerial b).trace =
      [.CoInitializeEx b.coInitializeEx, .CoInitializeSecurity b.coInitializeSecurity,
        .CoCreateInstance b.coCreateInstance, .ConnectServer b.connectServer,
        .ExecQuery b.execQuery, .Next hr none,
        .ReleaseEnumerator, .ReleaseServices, .ReleaseLocator, Call.CoUninitialize] := by
  obtain ⟨hr, h⟩ := enumLoop_no_object b.nexts 0 "" hy
  rw [GetMotherboardSerial_of_setupOk b hset, h]
  refine ⟨rfl, ?_, hr, ?_⟩
  · simp [List.countP_cons, Call.isNext]
  · simp

/-- Instance of C5 at an enumerator without records. -/
theorem C5_no_record_empty_serial_witness :
    (GetMotherboardSerial ⟨0, 0, 0, 0, 0, []⟩).value = "" ∧
    (GetMotherboardSerial ⟨0, 0, 0, 0, 0, []⟩).trace.countP Call.isNext = 1 :=
  have h := C5_no_record_empty_serial ⟨0, 0, 0, 0, 0, []⟩ (by decide) (by simp [yielded])
  ⟨h.1, h.2.1⟩

/-! ## The session open sequence of wmi_query.cpp -/

theorem WmiQuery.main_track (b : Backend) (r : Resource) :
    ∃ st, track r (WmiQuery.main b).trace .fresh = some st ∧ st ≠ .held := by
  unfold WmiQuery.main
  by_cases h1 : FAILED b.coInitializeEx = true
  · cases r <;>
      simp [h1, track, Call.acquires, Call.releases, SUCCEEDED_eq_not_FAILED]
  by_cases h2 : FAILED b.coInitializeSecurity = true
  · cases r <;>
      simp [h1, h2, track, Call.acquires, Call.releases, SUCCEEDED_eq_not_FAILED]
  by_cases h3 : FAILED b.coCreateInstance = true
  · cases r <;>
      simp [h1, h2, h3, track, Call.acquires, Call.releases, SUCCEEDED_eq_not_FAILED]
  by_cases h4 : FAILED b.connectServer = true
  · cases r <;>
      simp [h1, h2, h3, h4, track, Call.acquires, Call.releases, SUCCEEDED_eq_not_FAILED]
  cases r <;>
    simp [h1, h2, h3, h4, track, Call.acquires, Call.releases, SUCCEEDED_eq_not_FAILED]

/-- C9: in `main` of wmi_query.cpp, for every combination of outcomes of
`CoInitializeEx`, `CoInitializeSecurity`, `CoCreateInstance` and
`ConnectServer`: the exit status is 0 if all four succeed and 1 otherwise;
`CoUninitialize` is called once if `CoInitializeEx` succeeded and not at all
otherwise; the locator is released once if it was created (the first three
calls succeeded) and not at all otherwise; the services proxy is released
once if all four succeeded and not at all otherwise; and every resource is
acquired at most once, released as often as acquired, and never released
before it is acquired. -/
theorem C9_session_open_all_or_nothing (b : Backend) :
    ((WmiQuery.main b).value =
      if SUCCEEDED b.coInitializeEx ∧ SUCCEEDED b.coInitializeSecurity ∧
        SUCCEEDED b.coCreateInstance ∧ SUCCEEDED b.connectServer then 0 else 1) ∧
    (released .com (WmiQuery.main b).trace = if SUCCEEDED b.coInitializeEx then 1 else 0) ∧
    (released .locator (WmiQuery.main b).trace =
      if SUCCEEDED b.coInitializeEx ∧ SUCCEEDED b.coInitializeSecurity ∧
        SUCCEEDED b.coCreateInstance then 1 else 0) ∧
    (released .services (WmiQuery.main b).trace =
      if SUCCEEDED b.coInitializeEx ∧ SUCCEEDED b.coInitializeSecurity ∧
        SUCCEEDED b.coCreateInstance ∧ SUCCEEDED b.connectServer then 1 else 0) ∧
    ∀ r, released r (WmiQuery.main b).trace = acquired r (WmiQuery.main b).trace ∧
      acquired r (WmiQuery.main b).trace ≤ 1 ∧
      ∀ p, p <+: (WmiQuery.main b).trace → released r p ≤ acquired r p := by
  refine ⟨?_, ?_, ?_, ?_, fun r => ?_⟩
  case refine_5 =>
    obtain ⟨st, h, hst⟩ := WmiQuery.main_track b r
    exact track_sound r _ st h hst
  all_goals
    unfold WmiQuery.main
    by_cases h1 : FAILED b.coInitializeEx = true
    · simp [h1, released, Call.releases, SUCCEEDED_eq_not_FAILED]
    by_cases h2 : FAILED b.coInitializeSecurity = true
    · simp [h1, h2, released, Call.releases, SUCCEEDED_eq_not_FAILED]
    by_cases h3 : FAILED b.coCreateInstance = true
    · simp [h1, h2, h3, released, Call.releases, SUCCEEDED_eq_not_FAILED]
    by_cases h4 : FAILED b.connectServer = true
    · simp [h1, h2, h3, h4, released, Call.releases, SUCCEEDED_eq_not_FAILED]
    simp [h1, h2, h3, h4, released, Call.releases, SUCCEEDED_eq_not_FAILED]

/-! ## The host program -/

/-- C6: in the host program, for every outcome of `LoadLibrary`,
`GetProcAddress` and the opening of the output file, the entry point is
invoked exactly once when the module was loaded and "getSystemInfo" was
resolved, and never otherwise: the trace holds one invocation in that case
and none otherwise, and the world `main` leaves is the fixed file content
when the file was opened, the effect of one run of the entry point on the
initial world when it was not, and the initial world when load or resolution
failed.  When the symbol is not resolved `main` returns 1.  `DllMain` invokes
the callback exactly when the reason is `DLL_PROCESS_ATTACH` and the callback
is not null (it then leaves the world the callback produces, and otherwise
the world unchanged), and returns TRUE for every reason. -/
theorem C6_entry_point_invoked_iff_resolved (env : Host.HostEnv) (hModule reason : Nat)
    (cb : Option Host.GetSystemInfoFunc) (w : Host.World) :
    ((Host.main env).trace.count .invoke =
      if env.loadLibrary.isSome ∧ env.getProcAddress.isSome then 1 else 0) ∧
    ((Host.main env).world =
      match env.loadLibrary, env.getProcAddress with
      | some _, some f =>
          if env.isOpen then some "System Information Retrieved Successfully\n"
          else f env.world
      | _, _ => env.world) ∧
    (env.getProcAddress.isSome = false → (Host.main env).value = 1) ∧
    ((Host.DllMain hModule reason cb w).trace =
      if reason = Host.DLL_PROCESS_ATTACH ∧ cb.isSome then [.invoke] else []) ∧
    ((Host.DllMain hModule reason cb w).world =
      match cb with
      | some f => if reason = Host.DLL_PROCESS_ATTACH then f w else w
      | none => w) ∧
    (Host.DllMain hModule reason cb w).value = true := by
  refine ⟨?_, ?_, ?_, ?_, ?_, ?_⟩
  · unfold Host.main Host.DllMain
    cases hl : env.loadLibrary <;> cases hg : env.getProcAddress <;>
      cases ho : env.isOpen <;> simp
  · unfold Host.main Host.DllMain
    cases hl : env.loadLibrary <;> cases hg : env.getProcAddress <;>
      cases ho : env.isOpen <;> simp
  · unfold Host.main
    cases hl : env.loadLibrary <;> cases hg : env.getProcAddress <;> simp
  · unfold Host.DllMain
    cases cb <;> by_cases hr : reason = Host.DLL_PROCESS_ATTACH <;> simp [hr]
  · unfold Host.DllMain
    cases cb <;> by_cases hr : reason = Host.DLL_PROCESS_ATTACH <;> simp [hr]
  · unfold Host.DllMain
    cases cb <;> by_cases hr : reason = Host.DLL_PROCESS_ATTACH <;> simp [hr]

/-- C7: in the host program, when `LoadLibrary` returns null, `main` returns
1 after reporting the failure, and makes no other call: no symbol
resolution, no invocation of an entry point, nothing opened or written, no
`FreeLibrary`; the output file is left as it was. -/
theorem C7_load_failure_is_explicit (env : Host.HostEnv) (h : env.loadLibrary = none) :
    (Host.main env).value = 1 ∧
    (Host.main env).trace =
      [.LoadLibrary "wmi_query.dll", .cerr "Failed to load wmi_query.dll"] ∧
    (Host.main env).world = env.world ∧
    (∀ c ∈ (Host.main env).trace, c ≠ .invoke ∧ (∀ hI sym, c ≠ .GetProcAddress hI sym) ∧
      (∀ n, c ≠ .ofstream n) ∧ (∀ x, c ≠ .write x) ∧ c ≠ .endl ∧
      ∀ hI, c ≠ .FreeLibrary hI) := by
  unfold Host.main
  simp [h]

/-- Instance of C7 at an environment whose `LoadLibrary` returns null. -/
theorem C7_load_failure_is_explicit_witness :
    (Host.main ⟨none, some (fun _ => some "x"), true, none⟩).value = 1 ∧
    (Host.main ⟨none, some (fun _ => some "x"), true, none⟩).trace =
      [.LoadLibrary "wmi_query.dll", .cerr "Failed to load wmi_query.dll"] :=
  have h := C7_load_failure_is_explicit ⟨none, some (fun _ => some "x"), true, none⟩ rfl
  ⟨h.1, h.2.1⟩

/-- C8: in the host program, for every outcome of the load, the symbol
resolution and the opening of the output file, `FreeLibrary` is called exactly
once, on the handle returned by `LoadLibrary`, when the load succeeded, and is
not called when it failed; the entry point is invoked at most once, and no
invocation follows a `FreeLibrary` call. -/
theorem C8_module_freed_once_after_use (env : Host.HostEnv) :
    (∀ hI, (Host.main env).trace.count (.FreeLibrary hI) =
      if env.loadLibrary = some hI then 1 else 0) ∧
    (Host.main env).trace.count .invoke ≤ 1 ∧
    ∀ pre post hI, (Host.main env).trace = pre ++ .FreeLibrary hI :: post →
      Host.HostCall.invoke ∉ post := by
  have hlast : ∀ (pre0 : List Host.HostCall) (h0 : Nat) (pre post : List Host.HostCall)
      (hI : Nat), (∀ x, Host.HostCall.FreeLibrary x ∉ pre0) →
      pre0 ++ [.FreeLibrary h0] = pre ++ .FreeLibrary hI :: post → post = [] := by
    intro pre0 h0 pre post hI hno heq
    rcases List.eq_nil_or_concat post with hp | ⟨q, z, hp⟩
    · exact hp
    · exfalso
      subst hp
      have heq2 : pre0 ++ [Host.HostCall.FreeLibrary h0] =
          (pre ++ .FreeLibrary hI :: q) ++ [z] := by
        simpa [List.concat_eq_append] using heq
      have := List.append_inj_left' heq2 rfl
      exact hno hI (by simp [this])
  refine ⟨?_, ?_, ?_⟩
  · intro hI
    unfold Host.main Host.DllMain
    cases hl : env.loadLibrary <;> cases hg : env.getProcAddress <;>
      cases ho : env.isOpen <;> simp [List.count_cons]
  · unfold Host.main Host.DllMain
    cases hl : env.loadLibrary <;> cases hg : env.getProcAddress <;>
      cases ho : env.isOpen <;> simp
  · intro pre post hI heq
    have hp : post = [] := by
      revert heq
      unfold Host.main Host.DllMain
      cases hl : env.loadLibrary with
      | none =>
        intro heq
        exfalso
        have hmem : Host.HostCall.FreeLibrary hI ∈ pre ++ .FreeLibrary hI :: post := by simp
        rw [← heq] at hmem
        simp at hmem
      | some h0 =>
        cases hg : env.getProcAddress with
        | none =>
          intro heq
          exact hlast [.LoadLibrary "wmi_query.dll", .GetProcAddress h0 "getSystemInfo",
            .cerr "Failed to get address of getSystemInfo"] h0 pre post hI (by simp)
            (by simpa using heq)
        | some f =>
          cases ho : env.isOpen with
          | false =>
            intro heq
            exact hlast [.LoadLibrary "wmi_query.dll", .GetProcAddress h0 "getSystemInfo",
              .invoke, .ofstream "system_info.txt",
              .cerr "Failed to open system_info.txt for writing"] h0 pre post hI (by simp)
              (by simpa using heq)
          | true =>
            intro heq
            exact hlast [.LoadLibrary "wmi_query.dll", .GetProcAddress h0 "getSystemInfo",
              .invoke, .ofstream "system_info.txt",
              .write "System Information Retrieved Successfully", .endl, .close] h0 pre post
              hI (by simp) (by simpa using heq)
    simp [hp]

/-- C10: for any two runs of the host program in which the load, the symbol
resolution and the opening of the output file succeed, whatever the entry
point does to the world and whatever the file held before, `system_info.txt`
holds the same content after both runs, namely the line "System Information
Retrieved Successfully" followed by a newline, and both runs return 0. -/
theorem C10_output_independent_of_provider (env1 env2 : Host.HostEnv)
    (h1 : env1.loadLibrary.isSome = true ∧ env1.getProcAddress.isSome = true ∧
      env1.isOpen = true)
    (h2 : env2.loadLibrary.isSome = true ∧ env2.getProcAddress.isSome = true ∧
      env2.isOpen = true) :
    (Host.main env1).world = (Host.main env2).world ∧
    (Host.main env1).world = some "System Information Retrieved Successfully\n" ∧
    (Host.main env1).value = 0 ∧ (Host.main env2).value = 0 := by
  obtain ⟨l1, g1, o1⟩ := h1
  obtain ⟨l2, g2, o2⟩ := h2
  obtain ⟨a1, ha1⟩ := Option.isSome_iff_exists.mp l1
  obtain ⟨f1, hf1⟩ := Option.isSome_iff_exists.mp g1
  obtain ⟨a2, ha2⟩ := Option.isSome_iff_exists.mp l2
  obtain ⟨f2, hf2⟩ := Option.isSome_iff_exists.mp g2
  have e1 : (Host.main env1).world = some "System Information Retrieved Successfully\n" := by
    simp [Host.main, ha1, hf1, o1]
  have e2 : (Host.main env2).world = some "System Information Retrieved Successfully\n" := by
    simp [Host.main, ha2, hf2, o2]
  refine ⟨e1.trans e2.symm, e1, ?_, ?_⟩
  · simp [Host.main, ha1, hf1, o1]
  · simp [Host.main, ha2, hf2, o2]

/-- Instance of C10 at two providers, one overwriting the file, one leaving it. -/
theorem C10_output_independent_of_provider_witness :
    (Host.main ⟨some 1, some (fun _ => some "SERIAL-1"), true, none⟩).world =
      (Host.main ⟨some 2, some (fun w => w), true, some "old content"⟩).world ∧
    (Host.main ⟨some 1, some (fun _ => some "SERIAL-1"), true, none⟩).world =
      some "System Information Retrieved Successfully\n" :=
  have h := C10_output_independent_of_provider
    ⟨some 1, some (fun _ => some "SERIAL-1"), true, none⟩
    ⟨some 2, some (fun w => w), true, some "old content"⟩
    ⟨rfl, rfl, rfl⟩ ⟨rfl, rfl, rfl⟩
  ⟨h.1, h.2.1⟩

end Logicytics
